import Mathlib

/-!
Verification development for the kpack build-completion component:
the metadata retriever (`pkg/cnb/cnb_metadata.go`) and the completion
binary (credential merging, build-status assembly, signing dispatch).

Go functions are embedded shallowly: fallible Go calls returning
`(T, error)` become `Except GoError T` (or an explicit pair when the
zero value on failure matters), machine state and I/O collaborators
become explicit parameters, and label contents are represented as
already-parsed JSON trees (the raw-byte JSON parse belongs to the
excluded `encoding/json` collaborator).
-/

/-- Go `error` values are modelled by their message strings. -/
abbrev GoError := String

/-- Model of `errors.Wrap(err, msg)`: the message is `msg ++ ": " ++ err`. -/
def wrapErr (msg : GoError) (e : GoError) : GoError := msg ++ ": " ++ e

/-- A JSON tree, the decoded form of a structured OCI label value. -/
inductive Json where
  | null : Json
  | bool (b : Bool) : Json
  | num (n : Int) : Json
  | str (s : String) : Json
  | arr (elems : List Json) : Json
  | obj (fields : List (String × Json)) : Json

/-- First-match lookup of a key among the fields of a JSON object. -/
def jsonLookup : List (String × Json) → String → Option Json
  | [], _ => none
  | (k, v) :: rest, key => if k = key then some v else jsonLookup rest key

/-- Splits a character list at every occurrence of `c`, like Go
`strings.Split` with a one-character separator. -/
def splitOnChar (c : Char) : List Char → List (List Char)
  | [] => [[]]
  | x :: xs =>
    match splitOnChar c xs with
    | [] => [[]]
    | g :: gs => if x = c then [] :: g :: gs else (x :: g) :: gs

/-- Go `strings.Split(s, sep)` for a one-character separator. -/
def goSplit (c : Char) (s : String) : List String :=
  (splitOnChar c s.data).map String.mk

/-- Splits a character list at the first occurrence of `c`, returning the
parts before and after it, or `none` when `c` does not occur. -/
def breakAtFirst (c : Char) : List Char → Option (List Char × List Char)
  | [] => none
  | x :: xs =>
    if x = c then some ([], xs)
    else (breakAtFirst c xs).map (fun p => (x :: p.1, p.2))

/-- Index of the last occurrence of `c`, like Go `strings.LastIndex`. -/
def lastIndexOf (c : Char) : List Char → Option Nat
  | [] => none
  | x :: xs =>
    match lastIndexOf c xs with
    | some i => some (i + 1)
    | none => if x = c then some 0 else none

/-- Hexadecimal digit test for digest validation. -/
def isHexChar (c : Char) : Bool :=
  c.isDigit || (('a' ≤ c) && (c ≤ 'f')) || (('A' ≤ c) && (c ≤ 'F'))

/-- Word character test for tag validation (`[A-Za-z0-9_]`). -/
def isWordChar (c : Char) : Bool :=
  c.isAlpha || c.isDigit || c = '_'

/-- Modelled from the spec: digest syntax check of the external
go-containerregistry `name` package (`<algorithm>:<hex, at least 32>`),
backing the `ReferenceParseError` failure mode of spec section 4.2. -/
def isValidDigest (l : List Char) : Bool :=
  match breakAtFirst ':' l with
  | none => false
  | some (algo, hex) =>
    (match algo with
     | [] => false
     | c :: cs => c.isAlpha && cs.all (fun x => x.isAlpha || x.isDigit)) &&
    decide (32 ≤ hex.length) && hex.all isHexChar

/-- Modelled from the spec: tag syntax check of the external
go-containerregistry `name` package (word char, then word chars, dots
and dashes, at most 128 characters). -/
def isValidTag (l : List Char) : Bool :=
  match l with
  | [] => false
  | c :: cs =>
    isWordChar c && cs.all (fun x => isWordChar x || x = '.' || x = '-') &&
    decide (l.length ≤ 128)

/-- Splits off a trailing tag: the part after the last `:` when that `:`
comes after the last `/`, mirroring the external `name.NewTag` rule. -/
def tagSplit (l : List Char) : List Char × Option (List Char) :=
  match lastIndexOf ':' l, lastIndexOf '/' l with
  | some i, none => (l.take i, some (l.drop (i + 1)))
  | some i, some j => if j < i then (l.take i, some (l.drop (i + 1))) else (l, none)
  | none, _ => (l, none)

/-- Default registry of the external `name` package. -/
def defaultRegistry : String := "index.docker.io"

/-- Modelled from the spec: repository normalization of the external
go-containerregistry `name` package. A leading component containing a
dot or colon, or equal to localhost, is the registry; otherwise the
default registry (and, for single-component names, the default
namespace) is prepended. Returns the string `Context().String()` form. -/
def parseRepository (l : List Char) : Option String :=
  if l = [] then none
  else
    match breakAtFirst '/' l with
    | none => some (String.mk (defaultRegistry.data ++ '/' :: "library/".data ++ l))
    | some (first, rest) =>
      if rest = [] then none
      else if first.contains '.' || first.contains ':' || first = "localhost".data then
        some (String.mk (first ++ '/' :: rest))
      else
        some (String.mk (defaultRegistry.data ++ '/' :: l))

/-- Result of parsing an image reference: the repository
(`Context().String()`), the `Identifier()` (digest when the reference
carries one, tag otherwise), and whether it is a digest reference. -/
structure ParsedReference where
  contextStr : String
  identifier : String
  isDigest : Bool
deriving DecidableEq, Repr

/-- Modelled from the spec: the external `name.ParseReference`. A
reference containing `@` is a digest reference (its identifier is the
digest after the first `@`, the repository drops any tag qualifier); a
reference with a trailing tag is a tag reference (its identifier is the
tag); otherwise the default tag latest applies. Malformed references
produce the `ReferenceParseError` failure mode. -/
def parseReference (s : String) : Except GoError ParsedReference :=
  match breakAtFirst '@' s.data with
  | some (base, dig) =>
    if isValidDigest dig then
      match parseRepository (tagSplit base).1 with
      | some ctx => .ok ⟨ctx, String.mk dig, true⟩
      | none => .error (wrapErr "could not parse reference" s)
    else .error (wrapErr "could not parse reference" s)
  | none =>
    match tagSplit s.data with
    | (base, some t) =>
      if isValidTag t then
        match parseRepository base with
        | some ctx => .ok ⟨ctx, String.mk t, false⟩
        | none => .error (wrapErr "could not parse reference" s)
      else .error (wrapErr "could not parse reference" s)
    | (base, none) =>
      match parseRepository base with
      | some ctx => .ok ⟨ctx, "latest", false⟩
      | none => .error (wrapErr "could not parse reference" s)

/-- Buildpack descriptor of the external lifecycle library
(`lifecyclebuildpack.GroupBuildpack`), restricted to the fields the
retriever reads (id, version, homepage). -/
structure GroupBuildpack where
  ID : String
  Version : String
  Homepage : String
deriving DecidableEq, Repr

/-- The external `platform.BuildMetadata`, restricted to the
`buildpacks` field the retriever reads. The slice may be nil (`none`). -/
structure BuildMetadata where
  Buildpacks : Option (List GroupBuildpack)
deriving DecidableEq, Repr

/-- `runImageAppMetadata` from `pkg/cnb/cnb_metadata.go` (json keys
`topLayer` and `reference`). -/
structure runImageAppMetadata where
  TopLayer : String
  Reference : String
deriving DecidableEq, Repr

/-- Modelled from the spec: the legacy stack run-image sub-object of the
layer-metadata label (json key `image`); its Go definition
(`RunImageMetadata`) is not under src. -/
structure RunImageMetadata where
  Image : String
deriving DecidableEq, Repr

/-- Modelled from the spec: the legacy stack sub-object of the
layer-metadata label (json key `runImage`); its Go definition
(`StackMetadata`) is not under src. -/
structure StackMetadata where
  RunImage : RunImageMetadata
deriving DecidableEq, Repr

/-- `appLayersMetadata` from `pkg/cnb/cnb_metadata.go`: only the
`runImage` and `stack` fields are declared, so any app-layers field of
the label is ignored by decoding. -/
structure appLayersMetadata where
  RunImage : runImageAppMetadata
  Stack : StackMetadata
deriving DecidableEq, Repr

/-- Go `encoding/json` semantics for a string-typed struct field: a
missing or null field keeps the zero value, a string decodes, and any
other shape is a type error. -/
def decStringField : Option Json → Except GoError String
  | none => .ok ""
  | some .null => .ok ""
  | some (.str s) => .ok s
  | some _ => .error "json: cannot unmarshal value into field of type string"

/-- Decodes `runImageAppMetadata` with Go `encoding/json` semantics:
unknown fields are ignored, missing fields keep zero values. -/
def decodeRunImageAppMetadata : Json → Except GoError runImageAppMetadata
  | .null => .ok ⟨"", ""⟩
  | .obj fs =>
    match decStringField (jsonLookup fs "topLayer") with
    | .error e => .error e
    | .ok topLayer =>
      match decStringField (jsonLookup fs "reference") with
      | .error e => .error e
      | .ok reference => .ok ⟨topLayer, reference⟩
  | _ => .error "json: cannot unmarshal value into runImageAppMetadata"

/-- Decodes `RunImageMetadata` (the `image` field) with Go
`encoding/json` semantics. -/
def decodeRunImageMetadata : Json → Except GoError RunImageMetadata
  | .null => .ok ⟨""⟩
  | .obj fs =>
    match decStringField (jsonLookup fs "image") with
    | .error e => .error e
    | .ok image => .ok ⟨image⟩
  | _ => .error "json: cannot unmarshal value into RunImageMetadata"

/-- Decodes `StackMetadata` (the `runImage` field) with Go
`encoding/json` semantics. -/
def decodeStackMetadata : Json → Except GoError StackMetadata
  | .null => .ok ⟨⟨""⟩⟩
  | .obj fs =>
    match jsonLookup fs "runImage" with
    | none => .ok ⟨⟨""⟩⟩
    | some j =>
      match decodeRunImageMetadata j with
      | .error e => .error e
      | .ok runImage => .ok ⟨runImage⟩
  | _ => .error "json: cannot unmarshal value into StackMetadata"

/-- Decodes `appLayersMetadata` with Go `encoding/json` semantics. Only
the `runImage` and `stack` keys are consulted; in particular any
app-layers entry of the label, whatever its shape, is ignored. -/
def decodeAppLayersMetadata : Json → Except GoError appLayersMetadata
  | .null => .ok ⟨⟨"", ""⟩, ⟨⟨""⟩⟩⟩
  | .obj fs =>
    match jsonLookup fs "runImage" with
    | none =>
      match jsonLookup fs "stack" with
      | none => .ok ⟨⟨"", ""⟩, ⟨⟨""⟩⟩⟩
      | some js =>
        match decodeStackMetadata js with
        | .error e => .error e
        | .ok stack => .ok ⟨⟨"", ""⟩, stack⟩
    | some jr =>
      match decodeRunImageAppMetadata jr with
      | .error e => .error e
      | .ok runImage =>
        match jsonLookup fs "stack" with
        | none => .ok ⟨runImage, ⟨⟨""⟩⟩⟩
        | some js =>
          match decodeStackMetadata js with
          | .error e => .error e
          | .ok stack => .ok ⟨runImage, stack⟩
  | _ => .error "json: cannot unmarshal value into appLayersMetadata"

/-- Decodes one buildpack entry (json keys `id`, `version`,
`homepage`) with Go `encoding/json` semantics. -/
def decodeGroupBuildpack : Json → Except GoError GroupBuildpack
  | .null => .ok ⟨"", "", ""⟩
  | .obj fs =>
    match decStringField (jsonLookup fs "id") with
    | .error e => .error e
    | .ok id =>
      match decStringField (jsonLookup fs "version") with
      | .error e => .error e
      | .ok version =>
        match decStringField (jsonLookup fs "homepage") with
        | .error e => .error e
        | .ok homepage => .ok ⟨id, version, homepage⟩
  | _ => .error "json: cannot unmarshal value into GroupBuildpack"

/-- Decodes a JSON array of buildpack entries elementwise. -/
def decodeGroupBuildpacks : List Json → Except GoError (List GroupBuildpack)
  | [] => .ok []
  | j :: rest =>
    match decodeGroupBuildpack j with
    | .error e => .error e
    | .ok b =>
      match decodeGroupBuildpacks rest with
      | .error e => .error e
      | .ok bs => .ok (b :: bs)

/-- Decodes `platform.BuildMetadata` (the `buildpacks` slice) with Go
`encoding/json` semantics: a missing or null slice stays nil. -/
def decodeBuildMetadata : Json → Except GoError BuildMetadata
  | .null => .ok ⟨none⟩
  | .obj fs =>
    match jsonLookup fs "buildpacks" with
    | none => .ok ⟨none⟩
    | some .null => .ok ⟨none⟩
    | some (.arr l) =>
      match decodeGroupBuildpacks l with
      | .error e => .error e
      | .ok bs => .ok ⟨some bs⟩
    | some _ => .error "json: cannot unmarshal value into buildpacks slice"
  | _ => .error "json: cannot unmarshal value into BuildMetadata"

/-- A fetched OCI image: its config labels (structured labels carry
their decoded JSON tree, plain string labels a `Json.str`) and the
creation timestamp of its config. -/
structure Image where
  labels : List (String × Json)
  createdAt : Int

/-- Label lookup in an image config. -/
def lookupLabel (img : Image) (key : String) : Option Json :=
  jsonLookup img.labels key

/-- The `platform.StackIDLabel` key. -/
def StackIDLabel : String := "io.buildpacks.stack.id"

/-- The `platform.BuildMetadataLabel` key. -/
def BuildMetadataLabel : String := "io.buildpacks.build.metadata"

/-- The `platform.LayerMetadataLabel` key. -/
def LayerMetadataLabel : String := "io.buildpacks.lifecycle.metadata"

/-- Modelled from the spec: `imagehelpers.GetStringLabel` (the
imagehelpers package is not under src). Reads a plain string label;
an absent label is the `LabelMissingError` failure mode. -/
def GetStringLabel (img : Image) (key : String) : Except GoError String :=
  match lookupLabel img key with
  | none => .error ("missing label " ++ key)
  | some (.str s) => .ok s
  | some _ => .error ("label " ++ key ++ " is not a string")

/-- Modelled from the spec: `imagehelpers.GetLabel` (the imagehelpers
package is not under src). Reads a structured label and decodes it; an
absent label is `LabelMissingError`, a decoder failure
`LabelDecodeError`. -/
def GetLabel {α : Type} (img : Image) (key : String)
    (dec : Json → Except GoError α) : Except GoError α :=
  match lookupLabel img key with
  | none => .error ("missing label " ++ key)
  | some j => dec j

/-- Modelled from the spec: `imagehelpers.GetCreatedAt` reads the
creation timestamp from the image config. -/
def GetCreatedAt (img : Image) : Except GoError Int :=
  .ok img.createdAt

/-- `BuiltImageStack` of the cnb package (fields `RunImage`, `ID`). -/
structure BuiltImageStack where
  RunImage : String
  ID : String
deriving DecidableEq, Repr

/-- `BuiltImage` from `pkg/cnb/cnb_metadata.go`. `CompletedAt` is a
timestamp, `BuildpackMetadata` a possibly-nil Go slice. -/
structure BuiltImage where
  Identifier : String
  CompletedAt : Int
  BuildpackMetadata : Option (List GroupBuildpack)
  Stack : BuiltImageStack
deriving DecidableEq, Repr

/-- `readBuiltImage` from `pkg/cnb/cnb_metadata.go`, translated match
for match; note that a failing stack-id lookup returns the zero
`BuiltImage` with a nil error, exactly as the source does. -/
def readBuiltImage (appImage : Image) (appImageId : String) : Except GoError BuiltImage :=
  match GetStringLabel appImage StackIDLabel with
  | .error _ => .ok ⟨"", 0, none, ⟨"", ""⟩⟩
  | .ok stackId =>
    match GetLabel appImage BuildMetadataLabel decodeBuildMetadata with
    | .error e => .error e
    | .ok buildMetadata =>
      match GetLabel appImage LayerMetadataLabel decodeAppLayersMetadata with
      | .error e => .error e
      | .ok layerMetadata =>
        match GetCreatedAt appImage with
        | .error e => .error e
        | .ok imageCreatedAt =>
          match parseReference layerMetadata.RunImage.Reference with
          | .error e => .error e
          | .ok runImageRef =>
            match parseReference layerMetadata.Stack.RunImage.Image with
            | .error e => .error e
            | .ok baseImageRef =>
              .ok ⟨appImageId, imageCreatedAt, buildMetadata.Buildpacks,
                   ⟨baseImageRef.contextStr ++ "@" ++ runImageRef.identifier, stackId⟩⟩

/-- Decidable equality for Go-style `(value, error)` results. -/
instance {ε α : Type} [DecidableEq ε] [DecidableEq α] : DecidableEq (Except ε α) := fun a b =>
  match a, b with
  | .ok x, .ok y =>
    if h : x = y then .isTrue (by rw [h]) else .isFalse (by intro hc; cases hc; exact h rfl)
  | .error x, .error y =>
    if h : x = y then .isTrue (by rw [h]) else .isFalse (by intro hc; cases hc; exact h rfl)
  | .ok _, .error _ => .isFalse (by intro hc; cases hc)
  | .error _, .ok _ => .isFalse (by intro hc; cases hc)

/-- Modelled from the spec: a credential set of the dockercreds package
(not under src), keyed by registry domain, carrying opaque
authentication material. -/
abbrev DockerCreds := List (String × String)

/-- Domain lookup in a credential set. -/
def credsLookup : DockerCreds → String → Option String
  | [], _ => none
  | (k, v) :: rest, d => if k = d then some v else credsLookup rest d

/-- Modelled from the spec: `DockerCreds.Append` of the dockercreds
package (not under src) — the merge contract of spec section 4.1.
Entries of the additional set are placed in front of the existing set,
so under the first-match `credsLookup` they overwrite same-domain
entries of the existing set and leave other domains unchanged. -/
def credsAppend (c a : DockerCreds) : DockerCreds :=
  a ++ c

/-- The `authn.Keychain` capability, kept abstract: either the cluster
keychain or a multi-keychain combining it with parsed credentials. -/
inductive AuthnKeychain where
  | base (n : Nat)
  | multiKeychain (k : AuthnKeychain) (creds : DockerCreds)

/-- The `ImageFetcher` interface of `pkg/cnb/cnb_metadata.go`: fetches
an image by reference, yielding the image and its content-addressed
identifier. -/
abbrev ImageFetcherCap := AuthnKeychain → String → Except GoError (Image × String)

/-- `RemoteMetadataRetriever` from `pkg/cnb/cnb_metadata.go`. -/
structure RemoteMetadataRetriever where
  Keychain : AuthnKeychain
  ImageFetcher : ImageFetcherCap

/-- `GetBuiltImage` from `pkg/cnb/cnb_metadata.go`. -/
def GetBuiltImage (r : RemoteMetadataRetriever) (tag : String) : Except GoError BuiltImage :=
  match r.ImageFetcher r.Keychain tag with
  | .error e => .error (wrapErr "unable to fetch app image" e)
  | .ok (appImage, appImageId) => readBuiltImage appImage appImageId

/-- `GetCacheImage` from `pkg/cnb/cnb_metadata.go`, kept as the Go
value pair to record the empty-string result on failure. -/
def GetCacheImage (r : RemoteMetadataRetriever) (cacheTag : String) : String × Option GoError :=
  match r.ImageFetcher r.Keychain cacheTag with
  | .error e => ("", some (wrapErr "unable to fetch cache image" e))
  | .ok (_, cacheImageId) => (cacheImageId, none)

/-- `authn.NewMultiKeychain(k8sKeychain, creds)` as used in the
completion binary. -/
def NewMultiKeychain (k : AuthnKeychain) (creds : DockerCreds) : AuthnKeychain :=
  .multiKeychain k creds

/-- `corev1alpha1.BuildpackMetadata` (fields `Id`, `Version`,
`Homepage`). -/
structure BuildpackMetadata where
  Id : String
  Version : String
  Homepage : String
deriving DecidableEq, Repr

/-- `corev1alpha1.BuildpackMetadataList`, a possibly-nil Go slice. -/
abbrev BuildpackMetadataList := Option (List BuildpackMetadata)

/-- Go `append` on a slice: a nil slice is treated as empty and the
result is always non-nil. -/
def goAppendSlice {α : Type} (s : Option (List α)) (x : α) : Option (List α) :=
  some (s.getD [] ++ [x])

/-- `buildMetadataFromBuiltImage` from the completion binary: allocates
a non-nil slice with `make` and appends one converted entry per input
buildpack. -/
def buildMetadataFromBuiltImage (image : BuiltImage) : BuildpackMetadataList :=
  (image.BuildpackMetadata.getD []).foldl
    (fun acc metadata => goAppendSlice acc ⟨metadata.ID, metadata.Version, metadata.Homepage⟩)
    (some [])

/-- `build.BuildStatusMetadata` as assembled by the completion binary. -/
structure BuildStatusMetadata where
  BuildpackMetadata : BuildpackMetadataList
  LatestImage : String
  LatestCacheImage : String
  StackRunImage : String
  StackID : String
deriving DecidableEq, Repr

/-- The export report read from `/var/report/report.toml`
(`platform.ExportReport`), restricted to the fields the binary reads:
`report.Image.Tags` and `report.Image.Digest`. -/
structure ExportReport where
  Tags : List String
  Digest : String
deriving DecidableEq, Repr

/-- The two signing backends the dispatcher can invoke. -/
inductive SigningBackend where
  | cosign
  | notary
deriving DecidableEq, Repr

/-- The flag-derived configuration of the completion binary (spec
section 6 configuration surface), constructed by the excluded CLI
layer. -/
structure CompletionConfig where
  cacheTag : String
  notaryV1URL : String
  dockerCredentials : List String
  dockerCfgCredentials : List String
  dockerConfigCredentials : List String
  cosignAnnotations : List String
  cosignRepositories : List String
  cosignDockerMediaTypes : List String

/-- Behaviour of the external collaborators of the completion binary:
file reads, the cluster keychain, secret parsing, the registry fetch
capability, the serializer, and the two signing backends. -/
structure CompletionWorld where
  reportFile : Except GoError ExportReport
  k8sKeychain : Except GoError AuthnKeychain
  basicAuthSecrets : Except GoError DockerCreds
  dockerConfigSecret : String → Except GoError DockerCreds
  saveCreds : Except GoError Unit
  fetch : ImageFetcherCap
  compress : BuildStatusMetadata → Except GoError String
  writeTermination : Except GoError Unit
  hasCosignSecret : Bool
  cosignSign : Except GoError Unit
  notarySign : Except GoError Unit

/-- `hasCosign` from the completion binary: whether secret material
exists at the well-known cosign signing-secret path. -/
def hasCosign (w : CompletionWorld) : Bool :=
  w.hasCosignSecret

/-- Recursion of `mapKeyValueArgs` over the repeated arguments,
carrying the accumulated override map. -/
def mapKeyValueArgsAux (overrides : List (String × String)) :
    List String → Except GoError (List (String × String))
  | [] => .ok overrides
  | arg :: rest =>
    match goSplit '=' arg with
    | [key, value] => mapKeyValueArgsAux (overrides ++ [(key, value)]) rest
    | _ => .error ("argument not formatted as -arg=key=value: " ++ arg)

/-- `mapKeyValueArgs` from the completion binary: each repeated
argument must split on `=` into exactly two parts. -/
def mapKeyValueArgs (args : List String) : Except GoError (List (String × String)) :=
  mapKeyValueArgsAux [] args

/-- `signImage` from the completion binary, instrumented to also return
the list of signing backends invoked, in order. -/
def signImage (cfg : CompletionConfig) (w : CompletionWorld) :
    Except GoError Unit × List SigningBackend :=
  if hasCosign w then
    match mapKeyValueArgs cfg.cosignAnnotations with
    | .error e => (.error e, [])
    | .ok _annotations =>
      match mapKeyValueArgs cfg.cosignRepositories with
      | .error e => (.error e, [])
      | .ok _repositories =>
        match mapKeyValueArgs cfg.cosignDockerMediaTypes with
        | .error e => (.error e, [])
        | .ok _mediaTypes =>
          match w.cosignSign with
          | .error e => (.error (wrapErr "cosign sign" e), [.cosign])
          | .ok _ =>
            if cfg.notaryV1URL ≠ "" then
              match w.notarySign with
              | .error e => (.error e, [.cosign, .notary])
              | .ok _ => (.ok (), [.cosign, .notary])
            else (.ok (), [.cosign])
  else
    if cfg.notaryV1URL ≠ "" then
      match w.notarySign with
      | .error e => (.error e, [.notary])
      | .ok _ => (.ok (), [.notary])
    else (.ok (), [])

/-- The credential-merging loop of the completion binary: each docker
config secret is parsed and appended (same-domain overwrite) onto the
credentials accumulated so far, failing fast on a parse error. -/
def loadDockerConfigSecrets (w : CompletionWorld) :
    List String → DockerCreds → Except GoError DockerCreds
  | [], creds => .ok creds
  | c :: rest, creds =>
    match w.dockerConfigSecret c with
    | .error e => .error e
    | .ok dockerCfgCreds => loadDockerConfigSecrets w rest (credsAppend creds dockerCfgCreds)

/-- The cache-image step of the completion binary: when a cache tag is
configured, resolve it through `GetCacheImage`, otherwise keep the
empty reference. -/
def cacheImageStep (r : RemoteMetadataRetriever) (cacheTag : String) : Except GoError String :=
  if cacheTag = "" then .ok ""
  else
    match GetCacheImage r cacheTag with
    | (s, none) => .ok s
    | (_, some e) => .error e

/-- The fetch targets contributed by the cache-image step. -/
def cacheFetchTargets (cfg : CompletionConfig) : List String :=
  if cfg.cacheTag = "" then [] else [cfg.cacheTag]

/-- Observable outcome of one completion run: every reference passed to
the fetch capability in order, the reference passed to `GetBuiltImage`
(when that call is reached), the signing backends invoked, the
assembled build status record (when reached), and the process result. -/
structure CompletionTrace where
  fetchTargets : List String
  builtFetchTarget : Option String
  signCalls : List SigningBackend
  written : Option BuildStatusMetadata
  result : Except GoError Unit

/-- `main` of the completion binary, translated step for step: report
decode, empty-tag check, built-image reference construction, credential
reconciliation, cache and built image retrieval, build status assembly
and serialization, then the signing dispatch. Any error is fatal
(`log.Fatal` becomes an error result). -/
def completionMain (cfg : CompletionConfig) (w : CompletionWorld) : CompletionTrace :=
  match w.reportFile with
  | .error e => ⟨[], none, [], none, .error (wrapErr "toml decode" e)⟩
  | .ok report =>
    match report.Tags with
    | [] => ⟨[], none, [], none, .error "no image found in report"⟩
    | tag0 :: _ =>
      let builtImageRef := tag0 ++ "@" ++ report.Digest
      match w.k8sKeychain with
      | .error e => ⟨[], none, [], none, .error e⟩
      | .ok k8sKeychain =>
        match w.basicAuthSecrets with
        | .error e => ⟨[], none, [], none, .error e⟩
        | .ok basicCreds =>
          match loadDockerConfigSecrets w
              (cfg.dockerCfgCredentials ++ cfg.dockerConfigCredentials) basicCreds with
          | .error e => ⟨[], none, [], none, .error e⟩
          | .ok creds =>
            match w.saveCreds with
            | .error e => ⟨[], none, [], none, .error (wrapErr "error writing docker creds" e)⟩
            | .ok _ =>
              let keychain := NewMultiKeychain k8sKeychain creds
              let metadataRetriever : RemoteMetadataRetriever := ⟨keychain, w.fetch⟩
              match cacheImageStep metadataRetriever cfg.cacheTag with
              | .error e => ⟨cacheFetchTargets cfg, none, [], none, .error e⟩
              | .ok cacheImageRef =>
                match GetBuiltImage metadataRetriever builtImageRef with
                | .error e =>
                  ⟨cacheFetchTargets cfg ++ [builtImageRef], some builtImageRef, [], none, .error e⟩
                | .ok builtImage =>
                  let buildStatusMetadata : BuildStatusMetadata :=
                    ⟨buildMetadataFromBuiltImage builtImage, builtImageRef, cacheImageRef,
                     builtImage.Stack.RunImage, builtImage.Stack.ID⟩
                  match w.compress buildStatusMetadata with
                  | .error e =>
                    ⟨cacheFetchTargets cfg ++ [builtImageRef], some builtImageRef, [],
                     some buildStatusMetadata, .error e⟩
                  | .ok _data =>
                    match w.writeTermination with
                    | .error e =>
                      ⟨cacheFetchTargets cfg ++ [builtImageRef], some builtImageRef, [],
                       some buildStatusMetadata, .error e⟩
                    | .ok _ =>
                      if hasCosign w || cfg.notaryV1URL ≠ "" then
                        match signImage cfg w with
                        | (.error e, calls) =>
                          ⟨cacheFetchTargets cfg ++ [builtImageRef], some builtImageRef, calls,
                           some buildStatusMetadata, .error e⟩
                        | (.ok _, calls) =>
                          ⟨cacheFetchTargets cfg ++ [builtImageRef], some builtImageRef, calls,
                           some buildStatusMetadata, .ok ()⟩
                      else
                        ⟨cacheFetchTargets cfg ++ [builtImageRef], some builtImageRef, [],
                         some buildStatusMetadata, .ok ()⟩

/-- The build-metadata label value of the metadata retriever test
(one buildpack, id test.id, version 1.2.3). -/
def bmJsonTest : Json :=
  .obj [("buildpacks", .arr [.obj [("id", .str "test.id"), ("version", .str "1.2.3")]])]

/-- The run-image sub-object of the layer-metadata label used by the
metadata retriever test (a digest reference). -/
def lmRunImageJson : Json := .obj [
  ("topLayer", .str "sha256:719f3f610dade1fdf5b4b2473aea0c6b1317497cf20691ab6d184a9b2fa5c409"),
  ("reference", .str "localhost:5000/node@sha256:0fd6395e4fe38a0c089665cbe10f52fb26fc64b4b15e672ada412bd7ab5499a0")]

/-- The legacy stack sub-object of the layer-metadata label used by the
metadata retriever test (a tag-qualified reference). -/
def lmStackJson : Json := .obj [("runImage", .obj [("image", .str "gcr.io:443/run:full-cnb")])]

/-- Layer-metadata label with the lifecycle 0.5 single-object
app-layers schema. -/
def lmJson05 : Json := .obj [
  ("app", .obj [("sha", .str "sha256:119f3f610dade1fdf5b4b2473aea0c6b1317497cf20691ab6d184a9b2fa5c409")]),
  ("runImage", lmRunImageJson), ("stack", lmStackJson)]

/-- Layer-metadata label with the lifecycle 0.6 list-of-objects
app-layers schema. -/
def lmJson06 : Json := .obj [
  ("app", .arr [
    .obj [("sha", .str "sha256:919f3f610dade1fdf5b4b2473aea0c6b1317497cf20691ab6d184a9b2fa5c409")],
    .obj [("sha", .str "sha256:119f3f610dade1fdf5b4b2473aea0c6b1317497cf20691ab6d184a9b2fa5c409")]]),
  ("runImage", lmRunImageJson), ("stack", lmStackJson)]

/-- App image with all three labels, 0.5 app-layers schema. -/
def testImage05 : Image :=
  ⟨[(BuildMetadataLabel, bmJsonTest), (LayerMetadataLabel, lmJson05),
    (StackIDLabel, .str "io.buildpacks.stack.bionic")], 1600000000⟩

/-- App image with all three labels, 0.6 app-layers schema. -/
def testImage06 : Image :=
  ⟨[(BuildMetadataLabel, bmJsonTest), (LayerMetadataLabel, lmJson06),
    (StackIDLabel, .str "io.buildpacks.stack.bionic")], 1600000000⟩

/-- App image lacking only the stack-id label. -/
def imgMissingStackId : Image :=
  ⟨[(BuildMetadataLabel, bmJsonTest), (LayerMetadataLabel, lmJson05)], 1600000000⟩

/-- App image lacking only the build-metadata label. -/
def imgMissingBuildMetadata : Image :=
  ⟨[(LayerMetadataLabel, lmJson05), (StackIDLabel, .str "io.buildpacks.stack.bionic")], 1600000000⟩

/-- App image lacking only the layer-metadata label. -/
def imgMissingLayerMetadata : Image :=
  ⟨[(BuildMetadataLabel, bmJsonTest), (StackIDLabel, .str "io.buildpacks.stack.bionic")], 1600000000⟩

/-- A retriever whose fetch capability always returns the given image
and identifier. -/
def constRetriever (img : Image) (id : String) : RemoteMetadataRetriever :=
  ⟨.base 0, fun _ _ => .ok (img, id)⟩

/-- The `BuiltImage` the retriever test expects for `testImage05` and
`testImage06`. -/
def expectedBuiltImage (id : String) : BuiltImage :=
  ⟨id, 1600000000, some [⟨"test.id", "1.2.3", ""⟩],
   ⟨"gcr.io:443/run@sha256:0fd6395e4fe38a0c089665cbe10f52fb26fc64b4b15e672ada412bd7ab5499a0",
    "io.buildpacks.stack.bionic"⟩⟩

/-- C1: claimed, retrieval fails whenever any of the three labels is
absent. The code violates this for the stack-id label: `readBuiltImage`
discards the lookup error and returns the zero `BuiltImage` with a nil
error, while an absent build-metadata or layer-metadata label is fatal
and app-layers schema variation is not. -/
theorem C1_stack_id_absence_not_fatal :
    GetBuiltImage (constRetriever imgMissingStackId "id") "reg.io/appimage/name" =
      .ok ⟨"", 0, none, ⟨"", ""⟩⟩
    ∧ GetBuiltImage (constRetriever imgMissingBuildMetadata "id") "reg.io/appimage/name" =
      .error ("missing label " ++ BuildMetadataLabel)
    ∧ GetBuiltImage (constRetriever imgMissingLayerMetadata "id") "reg.io/appimage/name" =
      .error ("missing label " ++ LayerMetadataLabel)
    ∧ GetBuiltImage (constRetriever testImage05 "id") "reg.io/appimage/name" =
      .ok (expectedBuiltImage "id")
    ∧ GetBuiltImage (constRetriever testImage06 "id") "reg.io/appimage/name" =
      .ok (expectedBuiltImage "id") :=
  ⟨rfl, rfl, rfl, rfl, rfl⟩

/-- Splitting at the first occurrence recovers the original list, and
the part before the split is free of the separator. -/
theorem breakAtFirst_eq {c : Char} :
    ∀ {l a b : List Char}, breakAtFirst c l = some (a, b) → l = a ++ c :: b ∧ c ∉ a := by
  intro l
  induction l with
  | nil => intro a b h; cases h
  | cons x xs ih =>
    intro a b h
    by_cases hx : x = c
    · rw [show breakAtFirst c (x :: xs) = some ([], xs) from by simp [breakAtFirst, hx]] at h
      injection h with h1
      cases h1
      exact ⟨by simp [hx], by simp⟩
    · simp only [breakAtFirst, if_neg hx, Option.map_eq_some'] at h
      obtain ⟨⟨a2, b2⟩, hp, heq⟩ := h
      obtain ⟨hxs, hcx⟩ := ih hp
      injection heq with ha hb
      subst hb
      rw [← ha]
      refine ⟨by rw [hxs]; rfl, ?_⟩
      intro hmem
      rcases List.mem_cons.mp hmem with h1 | h1
      · exact hx h1.symm
      · exact hcx h1

/-- A reference that parses as a digest reference has a syntactically
valid digest as identifier, and that identifier is exactly the text of
the reference after its first at sign. -/
theorem parseReference_digest (s ctx d : String)
    (h : parseReference s = .ok ⟨ctx, d, true⟩) :
    isValidDigest d.data = true ∧ ∃ pre, s.data = pre ++ '@' :: d.data ∧ '@' ∉ pre := by
  unfold parseReference at h
  split at h
  · rename_i base dig heq
    split at h
    · rename_i hd
      split at h
      · rename_i ctx2 hr
        simp only [Except.ok.injEq, ParsedReference.mk.injEq] at h
        obtain ⟨hc, hdd, _⟩ := h
        subst hdd
        obtain ⟨hs, hnb⟩ := breakAtFirst_eq heq
        exact ⟨hd, base, hs, hnb⟩
      · exact Except.noConfusion h
    · exact Except.noConfusion h
  · rename_i heq
    split at h
    · rename_i base t ht
      split at h
      · split at h
        · simp only [Except.ok.injEq, ParsedReference.mk.injEq] at h
          exact absurd h.2.2 (by decide)
        · exact Except.noConfusion h
      · exact Except.noConfusion h
    · rename_i base ht
      split at h
      · simp only [Except.ok.injEq, ParsedReference.mk.injEq] at h
        exact absurd h.2.2 (by decide)
      · exact Except.noConfusion h

/-- Run-image sub-object whose reference is tag-qualified only. -/
def lmRunImageJsonTag : Json := .obj [
  ("topLayer", .str "sha256:719f3f610dade1fdf5b4b2473aea0c6b1317497cf20691ab6d184a9b2fa5c409"),
  ("reference", .str "localhost:5000/node:v1")]

/-- Layer-metadata label whose run-image reference carries no digest. -/
def lmJsonTagRun : Json := .obj [
  ("app", .obj [("sha", .str "sha256:119f3f610dade1fdf5b4b2473aea0c6b1317497cf20691ab6d184a9b2fa5c409")]),
  ("runImage", lmRunImageJsonTag), ("stack", lmStackJson)]

/-- App image whose labels all parse but whose run-image reference
label is a tag reference. -/
def imgTagRunImage : Image :=
  ⟨[(BuildMetadataLabel, bmJsonTest), (LayerMetadataLabel, lmJsonTagRun),
    (StackIDLabel, .str "io.buildpacks.stack.bionic")], 1600000000⟩

/-- C2 counterexample: an app image whose labels parse successfully but
whose run-image reference label is a tag-only reference. Retrieval
succeeds and `Stack.RunImage` is the legacy repository followed by the
tag `v1`, which is not a digest — so the reconstructed string ends in a
tag, contradicting the claim. -/
theorem C2_counterexample_tag_suffix :
    GetBuiltImage (constRetriever imgTagRunImage "id") "reg.io/appimage/name" =
      .ok ⟨"id", 1600000000, some [⟨"test.id", "1.2.3", ""⟩],
           ⟨"gcr.io:443/run@v1", "io.buildpacks.stack.bionic"⟩⟩
    ∧ parseReference "localhost:5000/node:v1" = .ok ⟨"localhost:5000/node", "v1", false⟩
    ∧ isValidDigest "v1".data = false :=
  ⟨rfl, rfl, rfl⟩

/-- C2 (amended): for every app image whose labels parse successfully
and whose run-image reference label parses as a digest reference,
`Stack.RunImage` equals the repository of the legacy stack run-image
label, then `@`, then the digest part of the run-image reference label
(the text after its first `@`), which is a syntactically valid digest
and therefore not a tag. -/
theorem C2_run_image_reconstruction
    (img : Image) (appImageId sid : String) (bm : BuildMetadata) (lm : appLayersMetadata)
    (ctxR d ctxB idB : String) (bB : Bool)
    (h1 : GetStringLabel img StackIDLabel = .ok sid)
    (h2 : GetLabel img BuildMetadataLabel decodeBuildMetadata = .ok bm)
    (h3 : GetLabel img LayerMetadataLabel decodeAppLayersMetadata = .ok lm)
    (h4 : parseReference lm.RunImage.Reference = .ok ⟨ctxR, d, true⟩)
    (h5 : parseReference lm.Stack.RunImage.Image = .ok ⟨ctxB, idB, bB⟩) :
    readBuiltImage img appImageId =
      .ok ⟨appImageId, img.createdAt, bm.Buildpacks, ⟨ctxB ++ "@" ++ d, sid⟩⟩
    ∧ isValidDigest d.data = true
    ∧ ∃ pre, lm.RunImage.Reference.data = pre ++ '@' :: d.data ∧ '@' ∉ pre := by
  refine ⟨?_, (parseReference_digest _ _ _ h4).1, (parseReference_digest _ _ _ h4).2⟩
  simp only [readBuiltImage, h1, h2, h3, GetCreatedAt, h4, h5]

/-- Witness for C2 (amended) at the retriever test image. -/
theorem C2_run_image_reconstruction_witness :
    readBuiltImage testImage05 "id" =
      .ok ⟨"id", 1600000000, some [⟨"test.id", "1.2.3", ""⟩],
           ⟨"gcr.io:443/run" ++ "@" ++
              "sha256:0fd6395e4fe38a0c089665cbe10f52fb26fc64b4b15e672ada412bd7ab5499a0",
            "io.buildpacks.stack.bionic"⟩⟩ :=
  (C2_run_image_reconstruction testImage05 "id" "io.buildpacks.stack.bionic"
    ⟨some [⟨"test.id", "1.2.3", ""⟩]⟩
    ⟨⟨"sha256:719f3f610dade1fdf5b4b2473aea0c6b1317497cf20691ab6d184a9b2fa5c409",
      "localhost:5000/node@sha256:0fd6395e4fe38a0c089665cbe10f52fb26fc64b4b15e672ada412bd7ab5499a0"⟩,
     ⟨⟨"gcr.io:443/run:full-cnb"⟩⟩⟩
    "localhost:5000/node" "sha256:0fd6395e4fe38a0c089665cbe10f52fb26fc64b4b15e672ada412bd7ab5499a0"
    "gcr.io:443/run" "full-cnb" false rfl rfl rfl rfl rfl).1

/-- Object lookup skips an entry whose key differs from the looked-up
key. -/
theorem jsonLookup_append_cons_ne (l1 l2 : List (String × Json)) (K k : String) (v : Json)
    (h : K ≠ k) : jsonLookup (l1 ++ (K, v) :: l2) k = jsonLookup (l1 ++ l2) k := by
  induction l1 with
  | nil => simp [jsonLookup, if_neg h]
  | cons e rest ih =>
    obtain ⟨k0, v0⟩ := e
    by_cases hk : k0 = k
    · simp [jsonLookup, hk]
    · simp only [List.cons_append, jsonLookup, if_neg hk]
      exact ih

/-- Object lookup at the key of a distinguished entry returns the
earlier entry when one exists, else that entry's value. -/
theorem jsonLookup_append_cons_self (l1 l2 : List (String × Json)) (K : String) (v : Json) :
    jsonLookup (l1 ++ (K, v) :: l2) K = some ((jsonLookup l1 K).getD v) := by
  induction l1 with
  | nil => simp [jsonLookup]
  | cons e rest ih =>
    obtain ⟨k0, v0⟩ := e
    by_cases hk : k0 = K
    · simp [jsonLookup, hk]
    · simp only [List.cons_append, jsonLookup, if_neg hk]
      exact ih

/-- Decoding the layer-metadata label ignores the app entry entirely:
replacing its value by anything leaves the decode result unchanged. -/
theorem decodeAppLayersMetadata_ignores_app (p q : List (String × Json)) (v1 v2 : Json) :
    decodeAppLayersMetadata (.obj (p ++ ("app", v1) :: q)) =
      decodeAppLayersMetadata (.obj (p ++ ("app", v2) :: q)) := by
  simp only [decodeAppLayersMetadata]
  rw [jsonLookup_append_cons_ne p q "app" "runImage" v1 (by decide),
      jsonLookup_append_cons_ne p q "app" "runImage" v2 (by decide),
      jsonLookup_append_cons_ne p q "app" "stack" v1 (by decide),
      jsonLookup_append_cons_ne p q "app" "stack" v2 (by decide)]

/-- `readBuiltImage` only observes the three labels and the creation
timestamp of the image. -/
theorem readBuiltImage_congr (img1 img2 : Image) (id : String)
    (h1 : GetStringLabel img1 StackIDLabel = GetStringLabel img2 StackIDLabel)
    (h2 : GetLabel img1 BuildMetadataLabel decodeBuildMetadata =
          GetLabel img2 BuildMetadataLabel decodeBuildMetadata)
    (h3 : GetLabel img1 LayerMetadataLabel decodeAppLayersMetadata =
          GetLabel img2 LayerMetadataLabel decodeAppLayersMetadata)
    (h4 : GetCreatedAt img1 = GetCreatedAt img2) :
    readBuiltImage img1 id = readBuiltImage img2 id := by
  unfold readBuiltImage
  rw [h1, h2, h3, h4]

/-- C3: for every pair of app images identical except that the
app-layers entry of the layer-metadata label holds a single object in
one and a list of objects in the other, `readBuiltImage` (and
`GetBuiltImage`, when both fetches return those images under the same
identifier) returns equal `BuiltImage` values. -/
theorem C3_app_layers_schema (pre post p q : List (String × Json)) (o : List (String × Json))
    (a : List Json) (t : Int) (appImageId tag : String) (r1 r2 : RemoteMetadataRetriever) :
    readBuiltImage
        ⟨pre ++ (LayerMetadataLabel, Json.obj (p ++ ("app", Json.obj o) :: q)) :: post, t⟩
        appImageId =
      readBuiltImage
        ⟨pre ++ (LayerMetadataLabel, Json.obj (p ++ ("app", Json.arr a) :: q)) :: post, t⟩
        appImageId
    ∧ (r1.ImageFetcher r1.Keychain tag =
         .ok (⟨pre ++ (LayerMetadataLabel, Json.obj (p ++ ("app", Json.obj o) :: q)) :: post, t⟩,
              appImageId) →
       r2.ImageFetcher r2.Keychain tag =
         .ok (⟨pre ++ (LayerMetadataLabel, Json.obj (p ++ ("app", Json.arr a) :: q)) :: post, t⟩,
              appImageId) →
       GetBuiltImage r1 tag = GetBuiltImage r2 tag) := by
  have hmain : readBuiltImage
      ⟨pre ++ (LayerMetadataLabel, Json.obj (p ++ ("app", Json.obj o) :: q)) :: post, t⟩
      appImageId =
    readBuiltImage
      ⟨pre ++ (LayerMetadataLabel, Json.obj (p ++ ("app", Json.arr a) :: q)) :: post, t⟩
      appImageId := by
    apply readBuiltImage_congr
    · unfold GetStringLabel lookupLabel
      rw [jsonLookup_append_cons_ne _ _ _ _ _ (by decide : LayerMetadataLabel ≠ StackIDLabel),
          jsonLookup_append_cons_ne _ _ _ _ _ (by decide : LayerMetadataLabel ≠ StackIDLabel)]
    · unfold GetLabel lookupLabel
      rw [jsonLookup_append_cons_ne _ _ _ _ _ (by decide : LayerMetadataLabel ≠ BuildMetadataLabel),
          jsonLookup_append_cons_ne _ _ _ _ _ (by decide : LayerMetadataLabel ≠ BuildMetadataLabel)]
    · unfold GetLabel lookupLabel
      rw [jsonLookup_append_cons_self, jsonLookup_append_cons_self]
      cases hpre : jsonLookup pre LayerMetadataLabel with
      | some x => rfl
      | none =>
        simp only [Option.getD_none]
        exact decodeAppLayersMetadata_ignores_app p q (Json.obj o) (Json.arr a)
    · rfl
  refine ⟨hmain, fun hf1 hf2 => ?_⟩
  unfold GetBuiltImage
  rw [hf1, hf2]
  exact hmain

/-- Witness for C3 at the lifecycle 0.5 and 0.6 retriever test
images. -/
theorem C3_app_layers_schema_witness :
    readBuiltImage testImage05 "id" = readBuiltImage testImage06 "id"
    ∧ GetBuiltImage (constRetriever testImage05 "id") "reg.io/appimage/name" =
      GetBuiltImage (constRetriever testImage06 "id") "reg.io/appimage/name" := by
  have h := C3_app_layers_schema
    [(BuildMetadataLabel, bmJsonTest)]
    [(StackIDLabel, .str "io.buildpacks.stack.bionic")]
    []
    [("runImage", lmRunImageJson), ("stack", lmStackJson)]
    [("sha", .str "sha256:119f3f610dade1fdf5b4b2473aea0c6b1317497cf20691ab6d184a9b2fa5c409")]
    [.obj [("sha", .str "sha256:919f3f610dade1fdf5b4b2473aea0c6b1317497cf20691ab6d184a9b2fa5c409")],
     .obj [("sha", .str "sha256:119f3f610dade1fdf5b4b2473aea0c6b1317497cf20691ab6d184a9b2fa5c409")]]
    1600000000 "id" "reg.io/appimage/name"
    (constRetriever testImage05 "id") (constRetriever testImage06 "id")
  exact ⟨h.1, h.2 rfl rfl⟩

/-- C4: whenever the cosign backend is active, its override maps parse,
and its Sign call fails, the dispatch stops at once: the result is that
backend's error wrapped as a cosign sign error, and the only backend
ever invoked is the content-signing one — the notarization backend is
never attempted. -/
theorem C4_cosign_failure_stops_dispatch (cfg : CompletionConfig) (w : CompletionWorld)
    (a r m : List (String × String)) (e : GoError)
    (h1 : hasCosign w = true)
    (h2 : mapKeyValueArgs cfg.cosignAnnotations = .ok a)
    (h3 : mapKeyValueArgs cfg.cosignRepositories = .ok r)
    (h4 : mapKeyValueArgs cfg.cosignDockerMediaTypes = .ok m)
    (h5 : w.cosignSign = .error e) :
    signImage cfg w = (.error (wrapErr "cosign sign" e), [SigningBackend.cosign]) := by
  simp only [signImage, h1, h2, h3, h4, h5, if_true]

/-- A configuration with no cache tag, no notary URL and no flags. -/
def cfgPlain : CompletionConfig := ⟨"", "", [], [], [], [], [], []⟩

/-- A world whose cosign secret is present and whose cosign backend
fails with the error boom. -/
def wCosignFails : CompletionWorld :=
  ⟨.ok ⟨["reg.io/app:latest"], "sha256:abc"⟩, .ok (.base 0), .ok [], fun _ => .ok [],
   .ok (), fun _ _ => .error "unreachable", fun _ => .ok "", .ok (), true, .error "boom", .ok ()⟩

/-- Witness for C4 at a concrete failing world. -/
theorem C4_cosign_failure_witness :
    signImage cfgPlain wCosignFails = (.error "cosign sign: boom", [SigningBackend.cosign]) :=
  C4_cosign_failure_stops_dispatch cfgPlain wCosignFails [] [] [] "boom" rfl rfl rfl rfl rfl

/-- The override-argument parser fails exactly when some argument does
not split on the separator into exactly two parts, independently of
the accumulator. -/
theorem mapKeyValueArgsAux_error_iff (args : List String) :
    ∀ (acc : List (String × String)),
      (∃ e, mapKeyValueArgsAux acc args = .error e) ↔
        ∃ arg ∈ args, (goSplit '=' arg).length ≠ 2 := by
  induction args with
  | nil => intro acc; simp [mapKeyValueArgsAux]
  | cons arg rest ih =>
    intro acc
    simp only [mapKeyValueArgsAux]
    rcases hs : goSplit '=' arg with _ | ⟨k, _ | ⟨v, _ | ⟨x, xs⟩⟩⟩
    · simp [hs]
    · simp [hs]
    · simp only [List.mem_cons]
      constructor
      · intro he
        obtain ⟨arg2, hm, hbad⟩ := (ih (acc ++ [(k, v)])).mp he
        exact ⟨arg2, Or.inr hm, hbad⟩
      · intro hex
        obtain ⟨arg2, hm, hbad⟩ := hex
        rcases hm with hm | hm
        · subst hm; rw [hs] at hbad; simp at hbad
        · exact (ih (acc ++ [(k, v)])).mpr ⟨arg2, hm, hbad⟩
    · simp [hs]

/-- C5: an override-argument list makes `mapKeyValueArgs` fail exactly
when some argument does not split on `=` into exactly two parts, and
when the cosign dispatch processes such a list the dispatcher fails
without ever invoking any signing backend (hence before any signing
network call). -/
theorem C5_malformed_override_args :
    (∀ args : List String,
      (∃ e, mapKeyValueArgs args = .error e) ↔ ∃ arg ∈ args, (goSplit '=' arg).length ≠ 2)
    ∧ (∀ (cfg : CompletionConfig) (w : CompletionWorld), hasCosign w = true →
        (∃ arg ∈ cfg.cosignAnnotations ++ cfg.cosignRepositories ++ cfg.cosignDockerMediaTypes,
          (goSplit '=' arg).length ≠ 2) →
        (∃ e, (signImage cfg w).1 = .error e) ∧ (signImage cfg w).2 = []) := by
  have hiff : ∀ args : List String,
      (∃ e, mapKeyValueArgs args = .error e) ↔ ∃ arg ∈ args, (goSplit '=' arg).length ≠ 2 :=
    fun args => mapKeyValueArgsAux_error_iff args []
  refine ⟨hiff, fun cfg w hc hbad => ?_⟩
  obtain ⟨arg, hmem, hlen⟩ := hbad
  rcases List.mem_append.mp hmem with hmem2 | hM
  rcases List.mem_append.mp hmem2 with hA | hR
  · obtain ⟨e, he⟩ := (hiff cfg.cosignAnnotations).mpr ⟨arg, hA, hlen⟩
    simp [signImage, hc, he]
  · cases hmA : mapKeyValueArgs cfg.cosignAnnotations with
    | error e => simp [signImage, hc, hmA]
    | ok a =>
      obtain ⟨e, he⟩ := (hiff cfg.cosignRepositories).mpr ⟨arg, hR, hlen⟩
      simp [signImage, hc, hmA, he]
  · cases hmA : mapKeyValueArgs cfg.cosignAnnotations with
    | error e => simp [signImage, hc, hmA]
    | ok a =>
      cases hmR : mapKeyValueArgs cfg.cosignRepositories with
      | error e => simp [signImage, hc, hmA, hmR]
      | ok r =>
        obtain ⟨e, he⟩ := (hiff cfg.cosignDockerMediaTypes).mpr ⟨arg, hM, hlen⟩
        simp [signImage, hc, hmA, hmR, he]

/-- A configuration whose cosign annotation flag is missing its `=`. -/
def cfgBadAnnotation : CompletionConfig := ⟨"", "", [], [], [], ["novalue"], [], []⟩

/-- Witness for C5 at a concrete malformed argument. -/
theorem C5_malformed_override_args_witness :
    (∃ e, mapKeyValueArgs ["novalue"] = .error e)
    ∧ (∃ e, (signImage cfgBadAnnotation wCosignFails).1 = .error e)
    ∧ (signImage cfgBadAnnotation wCosignFails).2 = [] := by
  have h2 := C5_malformed_override_args.2 cfgBadAnnotation wCosignFails rfl
    ⟨"novalue", by decide, by decide⟩
  exact ⟨(C5_malformed_override_args.1 ["novalue"]).mpr ⟨"novalue", by decide, by decide⟩,
         h2.1, h2.2⟩

/-- C6: in every run with no cosign secret material and an empty
notary URL that otherwise completes its pipeline, the dispatcher
invokes zero signing backends and the completion step reports
success. -/
theorem C6_no_signing_success
    (cfg : CompletionConfig) (w : CompletionWorld) (r : ExportReport) (t : String)
    (ts : List String) (k8sK : AuthnKeychain) (creds0 creds : DockerCreds)
    (cacheRef : String) (bi : BuiltImage) (data : String)
    (h1 : w.reportFile = .ok r)
    (h2 : r.Tags = t :: ts)
    (h3 : w.k8sKeychain = .ok k8sK)
    (h4 : w.basicAuthSecrets = .ok creds0)
    (h5 : loadDockerConfigSecrets w (cfg.dockerCfgCredentials ++ cfg.dockerConfigCredentials)
            creds0 = .ok creds)
    (h6 : w.saveCreds = .ok ())
    (h7 : cacheImageStep ⟨NewMultiKeychain k8sK creds, w.fetch⟩ cfg.cacheTag = .ok cacheRef)
    (h8 : GetBuiltImage ⟨NewMultiKeychain k8sK creds, w.fetch⟩ (t ++ "@" ++ r.Digest) = .ok bi)
    (h9 : w.compress ⟨buildMetadataFromBuiltImage bi, t ++ "@" ++ r.Digest, cacheRef,
            bi.Stack.RunImage, bi.Stack.ID⟩ = .ok data)
    (h10 : w.writeTermination = .ok ())
    (h11 : hasCosign w = false)
    (h12 : cfg.notaryV1URL = "") :
    (completionMain cfg w).signCalls = [] ∧ (completionMain cfg w).result = .ok () := by
  simp [completionMain, h1, h2, h3, h4, h5, h6, h7, h8, h9, h10, h11, h12]

/-- A fully successful world with neither signing condition active. -/
def wHappy : CompletionWorld :=
  ⟨.ok ⟨["reg.io/app:latest"], "sha256:abc"⟩, .ok (.base 0), .ok [], fun _ => .ok [], .ok (),
   fun _ _ => .ok (testImage05, "fetched-id"), fun _ => .ok "", .ok (), false, .ok (), .ok ()⟩

/-- Witness for C6 at a concrete successful run. -/
theorem C6_no_signing_success_witness :
    (completionMain cfgPlain wHappy).signCalls = []
    ∧ (completionMain cfgPlain wHappy).result = .ok () :=
  C6_no_signing_success cfgPlain wHappy ⟨["reg.io/app:latest"], "sha256:abc"⟩
    "reg.io/app:latest" [] (.base 0) [] [] "" (expectedBuiltImage "fetched-id") ""
    rfl rfl rfl rfl rfl rfl rfl rfl rfl rfl rfl rfl

/-- C7: with a decoded report, an empty tag list fails with the
no-image-in-report error before any fetch, and with a non-empty tag
list the reference passed to `GetBuiltImage` is exactly the first tag,
then `@`, then the report digest. -/
theorem C7_report_reference
    (cfg : CompletionConfig) (w : CompletionWorld) (r : ExportReport)
    (hrep : w.reportFile = .ok r) :
    (r.Tags = [] →
      (completionMain cfg w).result = .error "no image found in report"
      ∧ (completionMain cfg w).fetchTargets = []
      ∧ (completionMain cfg w).builtFetchTarget = none
      ∧ (completionMain cfg w).signCalls = [])
    ∧ (∀ (t : String) (ts : List String) (k8sK : AuthnKeychain) (creds0 creds : DockerCreds)
         (cacheRef : String),
        r.Tags = t :: ts →
        w.k8sKeychain = .ok k8sK →
        w.basicAuthSecrets = .ok creds0 →
        loadDockerConfigSecrets w (cfg.dockerCfgCredentials ++ cfg.dockerConfigCredentials)
          creds0 = .ok creds →
        w.saveCreds = .ok () →
        cacheImageStep ⟨NewMultiKeychain k8sK creds, w.fetch⟩ cfg.cacheTag = .ok cacheRef →
        (completionMain cfg w).builtFetchTarget = some (t ++ "@" ++ r.Digest)) := by
  constructor
  · intro h0
    simp [completionMain, hrep, h0]
  · intro t ts k8sK creds0 creds cacheRef h2 h3 h4 h5 h6 h7
    simp only [completionMain, hrep, h2, h3, h4, h5, h6, h7]
    repeat (first | rfl | split)

/-- A world whose export report carries no tags. -/
def wEmptyTags : CompletionWorld :=
  ⟨.ok ⟨[], "sha256:abc"⟩, .ok (.base 0), .ok [], fun _ => .ok [], .ok (),
   fun _ _ => .ok (testImage05, "fetched-id"), fun _ => .ok "", .ok (), false, .ok (), .ok ()⟩

/-- Witness for C7 at a concrete empty-tag run and a concrete
successful run. -/
theorem C7_report_reference_witness :
    ((completionMain cfgPlain wEmptyTags).result = .error "no image found in report"
     ∧ (completionMain cfgPlain wEmptyTags).fetchTargets = [])
    ∧ (completionMain cfgPlain wHappy).builtFetchTarget =
        some ("reg.io/app:latest" ++ "@" ++ "sha256:abc") := by
  have ha := (C7_report_reference cfgPlain wEmptyTags ⟨[], "sha256:abc"⟩ rfl).1 rfl
  have hb := (C7_report_reference cfgPlain wHappy ⟨["reg.io/app:latest"], "sha256:abc"⟩ rfl).2
    "reg.io/app:latest" [] (.base 0) [] [] "" rfl rfl rfl rfl rfl rfl
  exact ⟨⟨ha.1, ha.2.1⟩, hb⟩

/-- Lookup over concatenated credential lists prefers the first
list. -/
theorem credsLookup_append (l1 l2 : DockerCreds) (d : String) :
    credsLookup (l1 ++ l2) d = (credsLookup l1 d).orElse (fun _ => credsLookup l2 d) := by
  induction l1 with
  | nil => simp [credsLookup, Option.orElse]
  | cons e rest ih =>
    obtain ⟨k, v⟩ := e
    by_cases hk : k = d
    · simp [credsLookup, hk, Option.orElse]
    · simp only [List.cons_append, credsLookup, if_neg hk]
      exact ih

/-- The merge is last-writer-wins under lookup: the additional set
wins for domains it holds, the existing set answers for the rest. -/
theorem credsLookup_credsAppend (c a : DockerCreds) (d : String) :
    credsLookup (credsAppend c a) d = (credsLookup a d).orElse (fun _ => credsLookup c d) := by
  unfold credsAppend
  exact credsLookup_append a c d

/-- C8: merging credential sources is domain-keyed last-writer-wins:
one merge step prefers the additional source and leaves other domains
to the existing set; folding a source list over the basic-auth set
answers each domain from the latest source holding it, falling back to
the basic-auth set; and the binary's docker-config loop is exactly that
fold over the cfg-then-config source list. -/
theorem C8_last_writer_wins :
    (∀ (c a : DockerCreds) (d : String),
      credsLookup (credsAppend c a) d = (credsLookup a d).orElse (fun _ => credsLookup c d))
    ∧ (∀ (basic : DockerCreds) (sources : List DockerCreds) (d : String),
        credsLookup (sources.foldl credsAppend basic) d =
          (sources.reverse.findSome? (fun s => credsLookup s d)).orElse
            (fun _ => credsLookup basic d))
    ∧ (∀ (w : CompletionWorld) (m : String → DockerCreds),
        (∀ n, w.dockerConfigSecret n = .ok (m n)) →
        ∀ (names : List String) (c0 : DockerCreds),
          loadDockerConfigSecrets w names c0 =
            .ok (names.foldl (fun acc n => credsAppend acc (m n)) c0)) := by
  refine ⟨credsLookup_credsAppend, ?_, ?_⟩
  · intro basic sources
    induction sources generalizing basic with
    | nil => intro d; simp [Option.orElse]
    | cons s ss ih =>
      intro d
      rw [List.foldl_cons, ih (credsAppend basic s) d, List.reverse_cons,
          List.findSome?_append, credsLookup_credsAppend]
      cases h1 : List.findSome? (fun s => credsLookup s d) ss.reverse with
      | some v => simp [Option.orElse]
      | none =>
        cases h2 : credsLookup s d with
        | some v => simp [Option.orElse, List.findSome?, h2]
        | none => simp [Option.orElse, List.findSome?, h2]
  · intro w m hm
    intro names
    induction names with
    | nil => intro c0; simp [loadDockerConfigSecrets]
    | cons n rest ih =>
      intro c0
      simp only [loadDockerConfigSecrets, hm n, List.foldl_cons]
      exact ih (credsAppend c0 (m n))

/-- Witness for C8 at concrete two-domain credential sets and a
concrete secret-loading run. -/
theorem C8_last_writer_wins_witness :
    credsLookup (credsAppend [("a.io", "old"), ("b.io", "keep")] [("a.io", "new")]) "a.io" =
      some "new"
    ∧ credsLookup (credsAppend [("a.io", "old"), ("b.io", "keep")] [("a.io", "new")]) "b.io" =
      some "keep"
    ∧ loadDockerConfigSecrets wHappy ["secret"] [] = .ok [] := by
  refine ⟨?_, ?_, ?_⟩
  · exact (C8_last_writer_wins.1 [("a.io", "old"), ("b.io", "keep")] [("a.io", "new")]
      "a.io").trans (by decide)
  · exact (C8_last_writer_wins.1 [("a.io", "old"), ("b.io", "keep")] [("a.io", "new")]
      "b.io").trans (by decide)
  · exact (C8_last_writer_wins.2.2 wHappy (fun _ => []) (fun _ => rfl) ["secret"] []).trans rfl

/-- Folding Go append over a list starting from a non-nil slice
produces the mapped list behind `some`. -/
theorem foldl_goAppendSlice (f : GroupBuildpack → BuildpackMetadata) (l : List GroupBuildpack) :
    ∀ acc : List BuildpackMetadata,
      l.foldl (fun a m => goAppendSlice a (f m)) (some acc) = some (acc ++ l.map f) := by
  induction l with
  | nil => intro acc; simp
  | cons x xs ih =>
    intro acc
    rw [List.foldl_cons, show goAppendSlice (some acc) (f x) = some (acc ++ [f x]) from rfl,
        ih (acc ++ [f x])]
    simp

/-- C9: for every `BuiltImage`, nil-sliced included, the assembled
buildpack metadata list is non-null (`some`), in the input's order and
length, each entry carrying the input's id, version and homepage; the
assembly is a total function (no I/O, no failure). -/
theorem C9_build_metadata_assembly (image : BuiltImage) :
    buildMetadataFromBuiltImage image =
      some ((image.BuildpackMetadata.getD []).map
        (fun m => (⟨m.ID, m.Version, m.Homepage⟩ : BuildpackMetadata)))
    ∧ ((image.BuildpackMetadata.getD []).map
        (fun m => (⟨m.ID, m.Version, m.Homepage⟩ : BuildpackMetadata))).length =
      (image.BuildpackMetadata.getD []).length := by
  constructor
  · unfold buildMetadataFromBuiltImage
    rw [show (some [] : Option (List BuildpackMetadata)) = some ([] : List BuildpackMetadata)
          from rfl,
        foldl_goAppendSlice (fun m => ⟨m.ID, m.Version, m.Homepage⟩)
          (image.BuildpackMetadata.getD []) []]
    simp
  · exact List.length_map _ _

/-- C10: `GetCacheImage` returns exactly the identifier produced by
the injected fetch capability with a nil error whenever the fetch
succeeds — independent of the fetched image's labels — and the empty
string with the wrapped fetch error when the fetch fails. -/
theorem C10_cache_image (r : RemoteMetadataRetriever) (tag : String) :
    (∀ (img : Image) (id : String), r.ImageFetcher r.Keychain tag = .ok (img, id) →
      GetCacheImage r tag = (id, none))
    ∧ (∀ e : GoError, r.ImageFetcher r.Keychain tag = .error e →
      GetCacheImage r tag = ("", some (wrapErr "unable to fetch cache image" e)))
    ∧ (∀ (r2 : RemoteMetadataRetriever) (img img2 : Image) (id : String),
        r.ImageFetcher r.Keychain tag = .ok (img, id) →
        r2.ImageFetcher r2.Keychain tag = .ok (img2, id) →
        GetCacheImage r tag = GetCacheImage r2 tag) := by
  refine ⟨?_, ?_, ?_⟩
  · intro img id h; simp [GetCacheImage, h]
  · intro e h; simp [GetCacheImage, h]
  · intro r2 img img2 id h1 h2; simp [GetCacheImage, h1, h2]

/-- A retriever whose fetch capability always fails. -/
def failRetriever : RemoteMetadataRetriever := ⟨.base 0, fun _ _ => .error "not found"⟩

/-- Witness for C10 at concrete succeeding and failing fetches. -/
theorem C10_cache_image_witness :
    GetCacheImage (constRetriever testImage05 "cacheid") "cache.io/tag" = ("cacheid", none)
    ∧ GetCacheImage failRetriever "cache.io/tag" =
        ("", some (wrapErr "unable to fetch cache image" "not found"))
    ∧ GetCacheImage (constRetriever testImage05 "cacheid") "cache.io/tag" =
        GetCacheImage (constRetriever testImage06 "cacheid") "cache.io/tag" :=
  ⟨(C10_cache_image (constRetriever testImage05 "cacheid") "cache.io/tag").1
      testImage05 "cacheid" rfl,
   (C10_cache_image failRetriever "cache.io/tag").2.1 "not found" rfl,
   (C10_cache_image (constRetriever testImage05 "cacheid") "cache.io/tag").2.2
      (constRetriever testImage06 "cacheid") testImage05 testImage06 "cacheid" rfl rfl⟩
